import Mathlib

/-!
Shallow embedding of the MetaSortX scan/extract/cache pipeline
(src/main.py and src/data_io.py) together with theorems that check the
specification claims against it.

Conventions of the embedding:
* Python exceptions are modelled with `Except Unit`; a caught exception
  corresponds to matching on `.error`.
* Filesystem and third-party behaviour (whether a file exists, what a
  page read returns, what the language detector and the raster renderer
  produce) are inputs of the model, carried in small "world" structures.
* Machine text is ASCII in all relevant places; Python `str` methods and
  the two regular expressions of the metadata stage are modelled
  character by character on `List Char`.
-/

namespace MetaSortX

/-- Python str.title over the ASCII alphabet: an alphabetic character that
follows a non-alphabetic one (or the start) is uppercased, an alphabetic
character following an alphabetic one is lowercased, everything else is
kept and resets the run. -/
def pyTitleAux : List Char → Bool → List Char
  | [], _ => []
  | c :: cs, prevAlpha =>
    (if c.isAlpha then (if prevAlpha then c.toLower else c.toUpper) else c)
      :: pyTitleAux cs c.isAlpha

def pyTitle (s : String) : String := ⟨pyTitleAux s.data false⟩

/-- Python str.upper over ASCII. -/
def pyUpper (s : String) : String := ⟨s.data.map Char.toUpper⟩

/-- Python str.lower over ASCII. -/
def pyLower (s : String) : String := ⟨s.data.map Char.toLower⟩

/-! ### Model of the two `re.search` patterns of `extract_metadata`

The year pattern is
  `\b(?:published|copyright|©)?\s*((19|20)\d{2})\b`   (IGNORECASE)
and the identifier pattern is
  `\b(?:ISBN(?:-1[03])?:?\s*)?((?:97[89][-\s]?)?\d{1,5}[-\s]?\d{1,7}[-\s]?\d{1,7}[-\s]?[\dxX])\b`
    (IGNORECASE).

`re.search` returns the leftmost match; at a fixed start position the
backtracking order prefers an optional group present over absent, a
greedy quantifier long over short, and alternatives in written order.
The functions below implement exactly that ordered search, with
continuation arguments playing the role of the remaining pattern. -/

/-- `\w` of Python `re` restricted to the ASCII inputs of the pipeline. -/
def isWordChar (c : Char) : Bool := c.isAlphanum || c == '_'

/-- `\s` of Python `re` (ASCII portion). -/
def isPySpace (c : Char) : Bool :=
  c == ' ' || c == '\t' || c == '\n' || c == '\r' || c == '\x0b' || c == '\x0c'

/-- the character class `[-\s]` used as a separator in the identifier
pattern. -/
def isSepChar (c : Char) : Bool := c == '-' || isPySpace c

/-- whether position `i` of `s` holds a word character (`false` past the
ends). -/
def wcAt (s : List Char) (i : Nat) : Bool :=
  match s.get? i with
  | some c => isWordChar c
  | none => false

/-- `\b` at position `i`: exactly one of the two neighbouring positions
holds a word character. -/
def wordBoundary (s : List Char) (i : Nat) : Bool :=
  (if i = 0 then false else wcAt s (i - 1)) != wcAt s i

/-- case-insensitive literal match of `w` starting at position `i`. -/
def ciPrefixAt (s : List Char) (i : Nat) : List Char → Bool
  | [] => true
  | c :: cs =>
    match s.get? i with
    | some d => d.toLower == c && ciPrefixAt s (i + 1) cs
    | none => false

/-- `n` consecutive decimal digits starting at position `i`. -/
def digitsFrom (s : List Char) (i n : Nat) : Bool :=
  ((s.drop i).take n).length == n && ((s.drop i).take n).all (·.isDigit)

/-- length of the whitespace run starting at position `i`. -/
def spaceRun (s : List Char) (i : Nat) : Nat :=
  ((s.drop i).takeWhile isPySpace).length

/-- try each alternative of a backtracking choice point in order and
return the first success. -/
def tryCounts (k : Nat → Option α) : List Nat → Option α
  | [] => none
  | n :: rest => (k n).orElse fun _ => tryCounts k rest

/-- `\s*` (greedy): try consuming the longest whitespace run first, then
ever shorter prefixes, resuming the rest of the pattern at the new
position. -/
def wsStar (s : List Char) (q : Nat) (k : Nat → Option α) : Option α :=
  tryCounts (fun n => k (q + n)) ((List.range (spaceRun s q + 1)).reverse)

/-- `[-\s]?` (greedy): with a separator present, try consuming it first. -/
def optSep (s : List Char) (i : Nat) (k : Nat → Option α) : Option α :=
  match s.get? i with
  | some c => if isSepChar c then (k (i + 1)).orElse (fun _ => k i) else k i
  | none => k i

/-- final `[\dxX]\b` of the identifier pattern; returns the position just
past the match. -/
def isbnFinalAt (s : List Char) (i : Nat) : Option Nat :=
  match s.get? i with
  | some c =>
    if (c.isDigit || c == 'x' || c == 'X') && wordBoundary s (i + 1) then some (i + 1)
    else none
  | none => none

/-- `\d{1,5}[-\s]?\d{1,7}[-\s]?\d{1,7}[-\s]?[\dxX]\b` starting at `q`,
greedy counts tried longest first. -/
def isbnCore (s : List Char) (q : Nat) : Option Nat :=
  tryCounts (fun n1 =>
    if digitsFrom s q n1 then
      optSep s (q + n1) (fun i2 =>
        tryCounts (fun n2 =>
          if digitsFrom s i2 n2 then
            optSep s (i2 + n2) (fun i4 =>
              tryCounts (fun n3 =>
                if digitsFrom s i4 n3 then
                  optSep s (i4 + n3) (fun i6 => isbnFinalAt s i6)
                else none) [7, 6, 5, 4, 3, 2, 1])
          else none) [7, 6, 5, 4, 3, 2, 1])
    else none) [5, 4, 3, 2, 1]

/-- `(?:97[89][-\s]?)?` before the digit groups: present first, absent on
failure. -/
def isbn978 (s : List Char) (q : Nat) : Option Nat :=
  (if ciPrefixAt s q ['9', '7', '8'] || ciPrefixAt s q ['9', '7', '9'] then
     optSep s (q + 3) (fun i => isbnCore s i)
   else none).orElse fun _ => isbnCore s q

/-- `:?\s*` at the end of the optional ISBN label. -/
def isbnAfterColon (s : List Char) (q : Nat) (k : Nat → Option α) : Option α :=
  (match s.get? q with
   | some c => if c == ':' then wsStar s (q + 1) k else none
   | none => none).orElse fun _ => wsStar s q k

/-- `(?:ISBN(?:-1[03])?:?\s*)?`: label present first (with its inner
optional parts also present first), absent as the last resort. -/
def isbnLabel (s : List Char) (p : Nat) (k : Nat → Option α) : Option α :=
  (if ciPrefixAt s p ['i', 's', 'b', 'n'] then
     (if ciPrefixAt s (p + 4) ['-', '1', '0'] || ciPrefixAt s (p + 4) ['-', '1', '3'] then
        isbnAfterColon s (p + 7) k
      else none).orElse fun _ => isbnAfterColon s (p + 4) k
   else none).orElse fun _ => k p

/-- the whole identifier pattern anchored at position `p`; returns the
text of capture group 1 (everything after the label). -/
def matchIsbnAt (s : List Char) (p : Nat) : Option (List Char) :=
  if wordBoundary s p then
    isbnLabel s p (fun q => (isbn978 s q).map (fun e => (s.drop q).take (e - q)))
  else none

/-- `re.search` for the identifier pattern: leftmost start position wins. -/
def reSearchIsbn (t : String) : Option String :=
  ((List.range (t.data.length + 1)).findSome? (matchIsbnAt t.data)).map (fun l => ⟨l⟩)

/-- `((19|20)\d{2})\b` at position `i`; returns the four digits. -/
def yearAt (s : List Char) (i : Nat) : Option (List Char) :=
  match s.get? i, s.get? (i + 1), s.get? (i + 2), s.get? (i + 3) with
  | some a, some b, some c, some d =>
    if ((a == '1' && b == '9') || (a == '2' && b == '0')) && c.isDigit && d.isDigit
        && wordBoundary s (i + 4) then
      some [a, b, c, d]
    else none
  | _, _, _, _ => none

/-- `(?:published|copyright|©)?`: alternatives in written order, then
absent. -/
def yearMarker (s : List Char) (p : Nat) (k : Nat → Option α) : Option α :=
  (if ciPrefixAt s p "published".data then k (p + 9) else none).orElse fun _ =>
  (if ciPrefixAt s p "copyright".data then k (p + 9) else none).orElse fun _ =>
  (if ciPrefixAt s p ['©'] then k (p + 1) else none).orElse fun _ =>
  k p

/-- the whole year pattern anchored at position `p`; returns capture
group 1. -/
def matchYearAt (s : List Char) (p : Nat) : Option (List Char) :=
  if wordBoundary s p then
    yearMarker s p (fun q => wsStar s q (fun r => yearAt s r))
  else none

/-- `re.search` for the year pattern: leftmost start position wins. -/
def reSearchYear (t : String) : Option String :=
  ((List.range (t.data.length + 1)).findSome? (matchYearAt t.data)).map (fun l => ⟨l⟩)

/-! ### Metadata stage (`extract_metadata`, src/main.py lines 101-133) -/

/-- the placeholder used for a year or identifier that was not found. -/
def MISSING : String := "Missing from PDF metadata"

/-- the placeholder used when the embedded author field is falsy. -/
def NOAUTHOR : String := "Not embedded in this file"

/-- `re.sub(r'[-\s]', '', raw_isbn)`. -/
def cleanSepStr (s : String) : String := ⟨s.data.filter (fun c => !(isSepChar c))⟩

/-- `re.fullmatch(r'(19|20)\d{2}', s)` as a Boolean. -/
def isYearShaped (s : String) : Bool :=
  match s.data with
  | [a, b, c, d] =>
    ((a == '1' && b == '9') || (a == '2' && b == '0')) && c.isDigit && d.isDigit
  | _ => false

/-- an opened document as the metadata stage sees it: the embedded author
field (whose read itself may raise) and the outcome of reading each
page's text. -/
structure PyDoc where
  metaAuthor : Except Unit (Option String)
  pages : List (Except Unit String)

/-- the page loop of `extract_metadata` (lines 107-127): on every page the
first year-pattern match overwrites `year`; the first accepted
identifier candidate is kept and breaks the loop; a page-read exception
escapes to the handler (which discards the accumulators). -/
def metaScan : List (Except Unit String) → String → String → Except Unit (String × String)
  | [], y, i => .ok (y, i)
  | .error _ :: _, _, _ => .error ()
  | .ok t :: rest, y, i =>
    let y2 := match reSearchYear t with
      | some v => v
      | none => y
    match reSearchIsbn t with
    | some raw =>
      let c := cleanSepStr raw
      if 10 ≤ c.length ∧ isYearShaped c = false then .ok (y2, c)
      else metaScan rest y2 i
    | none => metaScan rest y2 i

/-- `extract_metadata` (lines 101-133).  If reading the embedded metadata
raises, `author` is never bound, so the `except` handler of the stage
itself raises an unbound-local error which propagates (`.error`).  If a
page read raises after `author` was bound, the handler returns
`author.title()` with both placeholders. -/
def extract_metadata (doc : PyDoc) : Except Unit (String × String × String) :=
  match doc.metaAuthor with
  | .error _ => .error ()
  | .ok a =>
    let author := match a with
      | some v => if v = "" then NOAUTHOR else v
      | none => NOAUTHOR
    match metaScan (doc.pages.take 5) MISSING MISSING with
    | .ok (y, i) => .ok (pyTitle author, y, i)
    | .error _ => .ok (pyTitle author, MISSING, MISSING)

/-- the pages actually inspected by the loop: every page up to and
including the first one whose identifier candidate is accepted. -/
def acceptsIsbn (t : String) : Bool :=
  match reSearchIsbn t with
  | some raw =>
    let c := cleanSepStr raw
    if 10 ≤ c.length ∧ isYearShaped c = false then true else false
  | none => false

def scannedPages : List String → List String
  | [] => []
  | t :: rest => t :: (if acceptsIsbn t then [] else scannedPages rest)

/-- the identifier the loop keeps: the cleaned first regex match of the
first page whose candidate passes the length/not-a-year test. -/
def firstAcceptedIsbn : List String → Option String
  | [] => none
  | t :: rest =>
    match reSearchIsbn t with
    | some raw =>
      let c := cleanSepStr raw
      if 10 ≤ c.length ∧ isYearShaped c = false then some c
      else firstAcceptedIsbn rest
    | none => firstAcceptedIsbn rest

/-! ### Per-document processing (`process_pdf`, src/main.py lines 137-174) -/

/-- one discovery job `(index, full_path, rel_path)`; the two derived
path components used later (`os.path.basename` and `Path.parent.name`)
are carried explicitly. -/
structure Job where
  index : Nat
  fullPath : String
  relPath : String
  fileName : String
  parentName : String
deriving DecidableEq

/-- the filesystem/library behaviour of one document between discovery
and processing.  The outline, thumbnail and keyword stages catch every
exception internally and always return a value; those returned values
(which depend on the external language detector and renderer) are
inputs of the model. -/
structure DocWorld where
  pathExists : Bool
  suffixIsPdf : Bool
  openRes : Except Unit PyDoc
  tocRes : Except Unit (List String)
  fallbackBookmarks : List String
  previewImage : String
  keywords : String

/-- `extract_bookmarks` (lines 65-72): embedded outline titles uppercased
when present; `(False, [])` when absent or on any exception. -/
def extract_bookmarks (w : DocWorld) : Bool × List String :=
  match w.tocRes with
  | .ok toc => if toc.isEmpty then (false, []) else (true, toc.map pyUpper)
  | .error _ => (false, [])

/-- one catalog row (the dict built at lines 159-174). -/
structure Row where
  index : Nat
  fileName : String
  year : String
  isbn : String
  pageCount : Nat
  author : String
  sectionName : String
  absolutePath : String
  hasBookmarks : Bool
  tableOfContents : String
  previewImage : String
  readStatus : String
  keywords : String
  description : String
deriving DecidableEq

/-- `process_pdf` (lines 137-174).  A missing file or wrong suffix, an
open failure, or an exception escaping `extract_metadata` inside the
open-document guard all yield `None`; otherwise a full row is built. -/
def process_pdf (w : DocWorld) (j : Job) : Option Row :=
  if w.pathExists = false ∨ w.suffixIsPdf = false then none
  else
    match w.openRes with
    | .error _ => none
    | .ok doc =>
      match extract_metadata doc with
      | .error _ => none
      | .ok (author, year, isbn) =>
        let hb := extract_bookmarks w
        let bm := if hb.1 = false then w.fallbackBookmarks else hb.2
        some
          { index := j.index
            fileName := j.fileName
            year := year
            isbn := isbn
            pageCount := doc.pages.length
            author := author
            sectionName := j.parentName
            absolutePath := j.fullPath
            hasBookmarks := hb.1
            tableOfContents := String.intercalate "; " bm
            previewImage := w.previewImage
            readStatus := "Unread"
            keywords := w.keywords
            description := "" }

/-! ### Fingerprints (src/main.py lines 223-225)

`f"{name}_{stat.st_size}_{int(stat.st_mtime)}"`: Python renders the two
integers in decimal; `st_mtime` is a (non-negative in practice) real
timestamp modelled as a rational, and `int()` truncates towards zero. -/

def digitChar : Nat → Char
  | 0 => '0' | 1 => '1' | 2 => '2' | 3 => '3' | 4 => '4'
  | 5 => '5' | 6 => '6' | 7 => '7' | 8 => '8' | _ => '9'

/-- decimal digits of a natural number, most significant first. -/
def decDigits (n : Nat) : List Char :=
  if _h : n < 10 then [digitChar n]
  else decDigits (n / 10) ++ [digitChar (n % 10)]
decreasing_by exact Nat.div_lt_self (by omega) (by omega)

/-- Python decimal rendering of a natural number. -/
def natRepr (n : Nat) : String := ⟨decDigits n⟩

/-- the numeric value of a digit character (used to invert the decimal
rendering in proofs). -/
def digitVal (c : Char) : Nat := c.toNat - 48

/-- decode a decimal digit string back to its value. -/
def decVal (l : List Char) : Nat := l.foldl (fun a c => 10 * a + digitVal c) 0

/-- Python decimal rendering of an integer. -/
def intRepr (i : Int) : String :=
  if i < 0 then "-" ++ natRepr (-i).toNat else natRepr i.toNat

/-- Python `int()` on a rational: truncation towards zero. -/
def pyInt (q : ℚ) : Int := if q < 0 then -((-q).floor) else q.floor

/-- the content fingerprint of one file (line 225). -/
def fingerprint (name : String) (size : Nat) (mtime : ℚ) : String :=
  name ++ "_" ++ natRepr size ++ "_" ++ intRepr (pyInt mtime)

/-! ### Fingerprint store (`load_cache`/`save_cache`, src/main.py 179-188)

The state file either does not exist (`none`), or exists and
`json.load` either yields a mapping or raises.  The `json.load` call is
not guarded, so a raise propagates to the caller. -/

def load_cache (c : Option (Except Unit (List (String × String)))) :
    Except Unit (List (String × String)) :=
  match c with
  | some r => r
  | none => .ok []

/-! ### Catalog frames and persistence (`export_to_csv`, src/data_io.py)

A pandas DataFrame is modelled as named columns; the catalog built by
the pipeline has string (object-dtype) columns, integer columns and one
Boolean column.  An object cell may be missing (NaN). -/

inductive PCol where
  | obj (cells : List (Option String))
  | intc (cells : List Int)
  | boolc (cells : List Bool)
deriving DecidableEq

structure PFrame where
  cols : List (String × PCol)
deriving DecidableEq

/-- `str()` of an object cell followed by `.title()`: a missing value
(NaN) stringifies to "nan". -/
def normObjCell (c : Option String) : String :=
  pyTitle (match c with | some v => v | none => "nan")

/-- `export_to_csv` (src/main.py lines 238-246) as the frame it writes:
`astype(int)` on the integer `Page Count` column is the identity, and
every object-dtype column is mapped cell-wise through
`astype(str).apply(lambda x: x.title())`.  Non-object columns are left
unchanged. -/
def export_to_csv (df : PFrame) : PFrame :=
  ⟨df.cols.map (fun nc =>
    match nc.2 with
    | .obj cells => (nc.1, PCol.obj (cells.map (fun c => some (normObjCell c))))
    | c => (nc.1, c))⟩

/-- `pd.DataFrame(processed)`: the catalog frame, columns in dict key
order, no cell missing. -/
def frameOfRows (rows : List Row) : PFrame :=
  ⟨[("Index", .intc (rows.map (fun r => (r.index : Int)))),
    ("File Name", .obj (rows.map (fun r => some r.fileName))),
    ("Year", .obj (rows.map (fun r => some r.year))),
    ("ISBN", .obj (rows.map (fun r => some r.isbn))),
    ("Page Count", .intc (rows.map (fun r => (r.pageCount : Int)))),
    ("Author", .obj (rows.map (fun r => some r.author))),
    ("Section", .obj (rows.map (fun r => some r.sectionName))),
    ("Absolute Path", .obj (rows.map (fun r => some r.absolutePath))),
    ("Has Bookmarks", .boolc (rows.map (fun r => r.hasBookmarks))),
    ("Table of Contents", .obj (rows.map (fun r => some r.tableOfContents))),
    ("Preview Image", .obj (rows.map (fun r => some r.previewImage))),
    ("Read Status", .obj (rows.map (fun r => some r.readStatus))),
    ("Keywords", .obj (rows.map (fun r => some r.keywords))),
    ("Description", .obj (rows.map (fun r => some r.description)))]⟩

/-! ### The batch scan (`start_scan`, src/main.py lines 206-235) -/

/-- one job together with the behaviour of the world while it is
processed: the outcome of document processing, and the outcome of the
`os.stat` call made after it (which raises if the file vanished). -/
structure JobState where
  job : Job
  world : DocWorld
  statRes : Except Unit (Nat × ℚ)

/-- the environment of one scan: the fingerprint state file and the
discovered jobs with their worlds. -/
structure ScanWorld where
  cacheFile : Option (Except Unit (List (String × String)))
  jobs : List JobState

/-- what a completed scan produced: the catalog rows, the progress-
callback invocations in order, the rebuilt fingerprint map, and the
persisted artefacts (`none` when the catalog was empty and nothing was
written).  The frame handed to `save_data` is the catalog as assembled;
whether the in-place column normalisation done inside `export_to_csv`
is visible through it depends on dataframe-library storage sharing and
is modelled here with copy semantics. -/
structure ScanOutcome where
  rows : List Row
  calls : List (Nat × Nat)
  newCache : List (String × String)
  savedCache : Option (List (String × String))
  exportedCsv : Option PFrame
  savedFeather : Option PFrame
  savedCsvBackup : Option PFrame

/-- the `for i, job in enumerate(jobs, 1)` loop (lines 216-225).
`unlock_after` is the constant 1, so the guard is
`i % 1 == 0 or i == total_jobs`; the callback fires only inside
`if result:`.  The unguarded `os.stat` raise terminates the loop. -/
def scanLoop (total : Nat) :
    Nat → List JobState → List Row → List (Nat × Nat) → List (String × String) →
    Except Unit (List Row × List (Nat × Nat) × List (String × String))
  | _, [], rows, calls, nc => .ok (rows, calls, nc)
  | i, js :: rest, rows, calls, nc =>
    let pr := process_pdf js.world js.job
    let rows2 := match pr with
      | some r => rows ++ [r]
      | none => rows
    let calls2 := match pr with
      | some _ => if i % 1 = 0 ∨ i = total then calls ++ [(i, total)] else calls
      | none => calls
    match js.statRes with
    | .error _ => .error ()
    | .ok (sz, mt) =>
      scanLoop total (i + 1) rest rows2 calls2
        (nc ++ [(js.job.relPath, fingerprint js.job.fileName sz mt)])

/-- `start_scan` (lines 206-235): load the cache (unguarded), run the
loop, and if any rows were produced persist the cache, the normalised
CSV export, and the catalog via `save_data` (Feather plus CSV backup). -/
def start_scan (w : ScanWorld) : Except Unit ScanOutcome :=
  match load_cache w.cacheFile with
  | .error e => .error e
  | .ok _ =>
    match scanLoop w.jobs.length 1 w.jobs [] [] [] with
    | .error e => .error e
    | .ok (rows, calls, nc) =>
      if rows.isEmpty then .ok ⟨rows, calls, nc, none, none, none, none⟩
      else
        let df := frameOfRows rows
        .ok ⟨rows, calls, nc, some nc, some (export_to_csv df), some df, some df⟩

/-! ### Dual-format persistence load (`load_data`, src/data_io.py 12-36)

Each of the two files either does not exist (`none`) or exists and its
read either yields a frame or raises.  The Feather read is guarded; the
CSV read is not.  The elapsed-time component of the Python return value
is wall-clock time and is omitted from the model. -/

structure DataDir where
  feather : Option (Except Unit PFrame)
  csv : Option (Except Unit PFrame)

def load_data (d : DataDir) : Except Unit (PFrame × String) :=
  match d.feather with
  | some (.ok df) => .ok (df, "Feather")
  | _ =>
    match d.csv with
    | some (.ok df) => .ok (df, "CSV")
    | some (.error e) => .error e
    | none => .ok (⟨[]⟩, "None")

/-! ### File discovery (`find_pdfs_to_process`, src/main.py 191-201)

`os.walk` visits the root directory first and then each subtree
top-down, enumerating children in the order the operating system
returns them; that order is part of the tree model.  Within one
directory the loop iterates over `sorted(files)` (code-point
lexicographic, which is what both Python and the `String` order use)
and numbers qualifying files with a running index starting at 1. -/

inductive FTree where
  | dir (name : String) (files : List String) (subs : List FTree)

mutual
def walkDirs : FTree → List String → List (List String × List String)
  | .dir name files subs, pre =>
    (pre ++ [name], files) :: walkSubs subs (pre ++ [name])
def walkSubs : List FTree → List String → List (List String × List String)
  | [], _ => []
  | t :: ts, pre => walkDirs t pre ++ walkSubs ts pre
end

/-- `file.lower().endswith('.pdf')`: the suffix test on the character
sequence. -/
def isPdfName (f : String) : Bool := List.isSuffixOf ".pdf".data (pyLower f).data

/-- Python string comparison: code-point lexicographic order on the
character sequences. -/
def lexLe : List Char → List Char → Bool
  | [], _ => true
  | _ :: _, [] => false
  | a :: as, b :: bs =>
    if a.toNat < b.toNat then true
    else if a.toNat = b.toNat then lexLe as bs
    else false

/-- the ordering `sorted` uses on file names, as a proposition. -/
def nameLe (a b : String) : Prop := lexLe a.data b.data = true

instance (a b : String) : Decidable (nameLe a b) :=
  inferInstanceAs (Decidable (_ = true))

def insertSorted (f : String) : List String → List String
  | [] => [f]
  | g :: gs => if lexLe f.data g.data then f :: g :: gs else g :: insertSorted f gs

/-- Python `sorted(files)`: ascending code-point lexicographic order.
Keys that compare equal are identical strings, so every correct sort
produces this same list and stability is immaterial. -/
def sortFiles : List String → List String
  | [] => []
  | f :: fs => insertSorted f (sortFiles fs)

/-- the inner `for file in sorted(files)` loop: qualifying files are
numbered consecutively from `i`. -/
def addFiles (pre : List String) : List String → Nat → List (Nat × List String × String)
  | [], _ => []
  | f :: fs, i =>
    if isPdfName f then (i, pre, f) :: addFiles pre fs (i + 1)
    else addFiles pre fs i

/-- the outer `for dirpath, _, files in os.walk(root)` loop, threading
the running index across directories. -/
def collectJobs : List (List String × List String) → Nat → List (Nat × List String × String)
  | [], _ => []
  | (pre, files) :: rest, i =>
    let here := addFiles pre (sortFiles files) i
    here ++ collectJobs rest (i + here.length)

/-- `find_pdfs_to_process(root, cache)`: the cache argument is unused by
the discovery logic. -/
def find_pdfs_to_process (t : FTree) : List (Nat × List String × String) :=
  collectJobs (walkDirs t []) 1

/-! ### Derived characterisations used by the theorems -/

/-- the year the page loop ends up with: the last inspected page holding
a year-pattern match wins (`y0` if none does). -/
def lastYearOf (ts : List String) (y0 : String) : String :=
  ((scannedPages ts).filterMap reSearchYear).getLast?.getD y0

/-- the progress-callback invocations the loop at lines 216-221 emits:
one call `(i, total)` per job whose processing returned a row, none for
a job that produced no row. -/
def succCalls (total : Nat) : Nat → List JobState → List (Nat × Nat)
  | _, [] => []
  | i, js :: rest =>
    (if (process_pdf js.world js.job).isSome then [(i, total)] else [])
      ++ succCalls total (i + 1) rest

/-! ### Concrete fixtures used by witnesses and counterexamples -/

/-- a document that opens but whose embedded-metadata read raises. -/
def docMetaRaises : PyDoc := ⟨.error (), [.ok "copyright 2001"]⟩

/-- a well-behaved document with no pages. -/
def docEmpty : PyDoc := ⟨.ok none, []⟩

/-- a per-document world whose open fails. -/
def worldOpenFails : DocWorld := ⟨true, true, .error (), .error (), [], "", ""⟩

/-- a per-document world that processes cleanly. -/
def worldOk : DocWorld := ⟨true, true, .ok docEmpty, .ok [], [], "", ""⟩

def jobA : Job := ⟨1, "/r/a.pdf", "a.pdf", "a.pdf", "r"⟩
def jobB : Job := ⟨2, "/r/b.pdf", "b.pdf", "b.pdf", "r"⟩

/-- scan world with two jobs: the first fails to open, the second
processes cleanly; both `os.stat` calls succeed; no prior state file. -/
def scanWorldMixed : ScanWorld :=
  ⟨none, [⟨jobA, worldOpenFails, .ok (1, 2)⟩, ⟨jobB, worldOk, .ok (3, 4)⟩]⟩

/-- scan world with a single job that fails to open. -/
def scanWorldOneFailing : ScanWorld := ⟨none, [⟨jobA, worldOpenFails, .ok (1, 2)⟩]⟩

/-- scan world whose only job's file vanishes before the `os.stat`
fingerprint call. -/
def scanWorldStatDies : ScanWorld := ⟨none, [⟨jobA, worldOk, .error ()⟩]⟩

/-- a small directory tree: unsorted files in the root, one subdirectory
with an uppercase-extension document, and one non-document file. -/
def treeSample : FTree :=
  .dir "root" ["b.pdf", "a.pdf", "notes.txt"] [.dir "sub" ["c.PDF"] []]

/-! ## Claim C1 — persistence load fallback -/

/-- Claim C1 as stated is false: when the snapshot is corrupted and the
backup file exists but its read fails, `load_data` raises instead of
returning an empty catalog (the CSV read is unguarded); moreover the
fallback format tag is "CSV", not "Backup". -/
theorem C1_counterexample :
    load_data ⟨some (.error ()), some (.error ())⟩ = .error ()
      ∧ load_data ⟨some (.error ()), some (.ok ⟨[]⟩)⟩ = .ok (⟨[]⟩, "CSV")
      ∧ "CSV" ≠ "Backup" :=
  ⟨rfl, rfl, by decide⟩

/-- Claim C1, amended: the load tries the Feather snapshot first; any
snapshot read failure (or a missing snapshot) falls back to the CSV
backup; when the backup is valid its contents are returned with format
tag "CSV"; when neither file exists the result is an empty catalog with
tag "None" and no error; but when the backup file exists and its read
fails, the error propagates to the caller. -/
theorem C1_amended_thm :
    (∀ (f : PFrame) (c : Option (Except Unit PFrame)),
        load_data ⟨some (.ok f), c⟩ = .ok (f, "Feather"))
      ∧ (∀ (fe : Option (Except Unit PFrame)) (f : PFrame),
          fe = none ∨ fe = some (.error ()) → load_data ⟨fe, some (.ok f)⟩ = .ok (f, "CSV"))
      ∧ load_data ⟨none, none⟩ = .ok (⟨[]⟩, "None")
      ∧ (∀ fe, fe = none ∨ fe = some (.error ()) →
          load_data ⟨fe, some (.error ())⟩ = .error ()) := by
  refine ⟨fun f c => rfl, fun fe f h => ?_, rfl, fun fe h => ?_⟩
  · rcases h with h | h <;> subst h <;> rfl
  · rcases h with h | h <;> subst h <;> rfl

/-- witness for C1_amended_thm at concrete inputs. -/
theorem C1_witness :
    load_data ⟨none, some (.ok ⟨[]⟩)⟩ = .ok (⟨[]⟩, "CSV")
      ∧ load_data ⟨none, some (.error ())⟩ = .error () :=
  ⟨C1_amended_thm.2.1 none ⟨[]⟩ (Or.inl rfl), C1_amended_thm.2.2.2 none (Or.inl rfl)⟩

/-! ## Claim C7 — fingerprint store load -/

/-- Claim C7 as stated is false: a state file that exists but is
malformed makes `load_cache` raise (`json.load` is unguarded) instead
of returning an empty mapping. -/
theorem C7_counterexample : load_cache (some (.error ())) = .error () := rfl

/-- Claim C7, amended: `load_cache` returns the parsed mapping when the
state file exists and parses, returns the empty mapping when no state
file exists, but propagates the error when the file exists and is
unreadable or malformed — in which case the whole scan fails. -/
theorem C7_amended_thm :
    load_cache none = .ok []
      ∧ (∀ m, load_cache (some (.ok m)) = .ok m)
      ∧ load_cache (some (.error ())) = .error ()
      ∧ (∀ w : ScanWorld, w.cacheFile = some (.error ()) → start_scan w = .error ()) := by
  refine ⟨rfl, fun m => rfl, rfl, fun w h => ?_⟩
  unfold start_scan
  rw [h]
  rfl

/-- witness for C7_amended_thm at a concrete scan world. -/
theorem C7_witness : start_scan ⟨some (.error ()), []⟩ = .error () :=
  C7_amended_thm.2.2.2 ⟨some (.error ()), []⟩ rfl

/-! ## Claim C10 — unbound author variable in the metadata handler -/

/-- Claim C10: if reading the embedded document metadata raises before
`author` is bound, the stage's own handler hits the unbound local and
raises instead of returning placeholders; the surrounding open-document
guard of `process_pdf` catches that secondary error and the job
produces no row. -/
theorem C10_thm (d : PyDoc) (hd : d.metaAuthor = .error ()) :
    extract_metadata d = .error ()
      ∧ ∀ (w : DocWorld) (j : Job), w.openRes = .ok d → process_pdf w j = none := by
  have h1 : extract_metadata d = .error () := by
    unfold extract_metadata
    rw [hd]
  refine ⟨h1, fun w j hw => ?_⟩
  unfold process_pdf
  by_cases hp : w.pathExists = false ∨ w.suffixIsPdf = false
  · simp [hp]
  · simp [hp, hw, h1]

/-- witness for C10_thm at a concrete document and world. -/
theorem C10_witness :
    extract_metadata docMetaRaises = .error ()
      ∧ process_pdf ⟨true, true, .ok docMetaRaises, .ok [], [], "", ""⟩ jobA = none := by
  have h := C10_thm docMetaRaises rfl
  exact ⟨h.1, h.2 _ _ rfl⟩

/-! ## Claim C8 — whole-catalog normalisation post-pass -/

/-- Claim C8 as stated is false: the column post-pass of the CSV export
turns a missing value into the string "Nan" (via `astype(str)` and
`.title()`), not into the empty string. -/
theorem C8_counterexample :
    export_to_csv ⟨[("Author", .obj [none])]⟩ = ⟨[("Author", .obj [some "Nan"])]⟩
      ∧ "Nan" ≠ "" :=
  ⟨rfl, by decide⟩

/-- Claim C8, amended: after all jobs complete the CSV export applies a
whole-column pass that title-cases every object (text) column and
leaves other columns unchanged; a missing value is stringified to
"nan" and title-cased to "Nan", not replaced by the empty string; and
the frame written by the export step of `start_scan` is exactly this
normalisation of the assembled catalog. -/
theorem C8_amended_thm :
    (∀ (df : PFrame) (name : String) (cells : List (Option String)),
        (name, PCol.obj cells) ∈ df.cols →
          (name, PCol.obj (cells.map (fun c => some (normObjCell c)))) ∈ (export_to_csv df).cols)
      ∧ (∀ (df : PFrame) (name : String) (cells : List Int),
          (name, PCol.intc cells) ∈ df.cols → (name, PCol.intc cells) ∈ (export_to_csv df).cols)
      ∧ normObjCell none = "Nan"
      ∧ (∀ c, normObjCell (some c) = pyTitle c)
      ∧ (∀ (w : ScanWorld) (res : ScanOutcome), start_scan w = .ok res → res.rows ≠ [] →
          res.exportedCsv = some (export_to_csv (frameOfRows res.rows))) := by
  refine ⟨?_, ?_, rfl, fun c => rfl, ?_⟩
  · intro df name cells h
    have h2 := List.mem_map_of_mem
      (fun nc : String × PCol =>
        match nc.2 with
        | .obj cells => (nc.1, PCol.obj (cells.map (fun c => some (normObjCell c))))
        | c => (nc.1, c)) h
    simpa [export_to_csv] using h2
  · intro df name cells h
    have h2 := List.mem_map_of_mem
      (fun nc : String × PCol =>
        match nc.2 with
        | .obj cells => (nc.1, PCol.obj (cells.map (fun c => some (normObjCell c))))
        | c => (nc.1, c)) h
    simpa [export_to_csv] using h2
  · intro w res h hne
    unfold start_scan at h
    rcases hc : load_cache w.cacheFile with e | m
    · rw [hc] at h; cases h
    · rw [hc] at h
      rcases hs : scanLoop w.jobs.length 1 w.jobs [] [] [] with e | ⟨rows, calls, nc⟩
      · rw [hs] at h; cases h
      · rw [hs] at h
        dsimp only at h
        by_cases he : rows.isEmpty
        · rw [if_pos he] at h
          cases h
          exact absurd (by simpa using he) hne
        · rw [if_neg he] at h
          cases h
          rfl

/-- witness for C8_amended_thm: a concrete lowercase author cell is
title-cased by the export pass. -/
theorem C8_witness :
    ("Author", PCol.obj [some "Ann"]) ∈ (export_to_csv ⟨[("Author", PCol.obj [some "ann"])]⟩).cols := by
  have h := C8_amended_thm.1 ⟨[("Author", PCol.obj [some "ann"])]⟩ "Author" [some "ann"] (by simp)
  simpa using h

/-! ## The page loop of the metadata stage, characterised -/

lemma getLastD_cons {α : Type} (a d : α) (m : List α) :
    (a :: m).getLast?.getD d = m.getLast?.getD a := by
  cases m with
  | nil => rfl
  | cons b m2 =>
    rw [List.getLast?_cons_cons]
    rcases hx : (b :: m2).getLast? with _ | x
    · simp at hx
    · rfl

/-- on pages that all read successfully, the loop returns the
last-match-wins year over the scanned prefix and the first accepted
identifier candidate. -/
lemma metaScan_spec : ∀ (ts : List String) (y0 i0 : String),
    metaScan (ts.map Except.ok) y0 i0 =
      .ok (lastYearOf ts y0, (firstAcceptedIsbn ts).getD i0) := by
  intro ts
  induction ts with
  | nil =>
    intro y0 i0
    simp [metaScan, lastYearOf, scannedPages, firstAcceptedIsbn]
  | cons t rest ih =>
    intro y0 i0
    rcases hi : reSearchIsbn t with _ | raw
    · have haccf : acceptsIsbn t = false := by simp [acceptsIsbn, hi]
      have hfa : firstAcceptedIsbn (t :: rest) = firstAcceptedIsbn rest := by
        simp [firstAcceptedIsbn, hi]
      have hsp : scannedPages (t :: rest) = t :: scannedPages rest := by
        simp [scannedPages, haccf]
      rcases hy : reSearchYear t with _ | v
      · simp only [List.map_cons, metaScan, hy, hi]
        rw [ih y0 i0, hfa]
        unfold lastYearOf
        rw [hsp]
        simp [hy]
      · simp only [List.map_cons, metaScan, hy, hi]
        rw [ih v i0, hfa]
        unfold lastYearOf
        rw [hsp]
        simp only [List.filterMap_cons, hy]
        rw [getLastD_cons]
    · by_cases hok : 10 ≤ (cleanSepStr raw).length ∧ isYearShaped (cleanSepStr raw) = false
      · have hacct : acceptsIsbn t = true := by simp [acceptsIsbn, hi, hok]
        have hfa : firstAcceptedIsbn (t :: rest) = some (cleanSepStr raw) := by
          simp [firstAcceptedIsbn, hi, hok.1, hok.2]
        have hsp : scannedPages (t :: rest) = [t] := by
          simp [scannedPages, hacct]
        rcases hy : reSearchYear t with _ | v
        · simp only [List.map_cons, metaScan, hy, hi]
          rw [if_pos hok, hfa]
          unfold lastYearOf
          rw [hsp]
          simp [hy]
        · simp only [List.map_cons, metaScan, hy, hi]
          rw [if_pos hok, hfa]
          unfold lastYearOf
          rw [hsp]
          simp [hy]
      · have haccf : acceptsIsbn t = false := by
          simp only [acceptsIsbn, hi]
          rw [if_neg hok]
        have hfa : firstAcceptedIsbn (t :: rest) = firstAcceptedIsbn rest := by
          simp only [firstAcceptedIsbn, hi]
          rw [if_neg hok]
        have hsp : scannedPages (t :: rest) = t :: scannedPages rest := by
          simp [scannedPages, haccf]
        rcases hy : reSearchYear t with _ | v
        · simp only [List.map_cons, metaScan, hy, hi]
          rw [if_neg hok, ih y0 i0, hfa]
          unfold lastYearOf
          rw [hsp]
          simp [hy]
        · simp only [List.map_cons, metaScan, hy, hi]
          rw [if_neg hok, ih v i0, hfa]
          unfold lastYearOf
          rw [hsp]
          simp only [List.filterMap_cons, hy]
          rw [getLastD_cons]

/-! ## Claim C4 — first-match-wins year extraction -/

/-- Claim C4 as stated is false: the year variable is overwritten on
every inspected page that contains a match, so a later page's year
replaces an earlier one.  Here page 1 matches "1999" but the returned
year is page 2's "2020". -/
theorem C4_counterexample :
    (extract_metadata ⟨.ok none, [.ok "copyright 1999", .ok "copyright 2020"]⟩).map
        (fun r => r.2.1) = .ok "2020"
      ∧ reSearchYear "copyright 1999" = some "1999"
      ∧ ("2020" : String) ≠ "1999" :=
  ⟨rfl, rfl, by decide⟩

/-- Claim C4, amended: within one page the first year-pattern match is
taken, but across pages each inspected page's match overwrites the
held value, so the returned year is the match of the last inspected
page containing one (inspection covers the first five pages, stopping
early only when an identifier candidate is accepted); the placeholder
is returned when no inspected page matches. -/
theorem C4_amended_thm (a : Option String) (ts : List String) :
    (extract_metadata ⟨.ok a, ts.map Except.ok⟩).map (fun r => r.2.1) =
      .ok (lastYearOf (ts.take 5) MISSING) := by
  unfold extract_metadata
  rw [show (ts.map Except.ok).take 5 = (ts.take 5).map Except.ok from
    (List.map_take Except.ok ts 5).symm]
  rw [metaScan_spec]
  rfl

/-! ## Claim C5 — identifier acceptance test -/

/-- Claim C5: an identifier candidate is accepted only if, after
removing hyphen/space separators, it has at least 10 characters and is
not itself a bare year 19xx/20xx; the first accepted candidate wins
and stops the scan; and a page containing only "2015" leaves the
identifier at its placeholder. -/
theorem C5_thm :
    (∀ (a : Option String) (ts : List String),
        (extract_metadata ⟨.ok a, ts.map Except.ok⟩).map (fun r => r.2.2) =
          .ok ((firstAcceptedIsbn (ts.take 5)).getD MISSING))
      ∧ (∀ (ts : List String) (c : String), firstAcceptedIsbn ts = some c →
          10 ≤ c.length ∧ isYearShaped c = false)
      ∧ (extract_metadata ⟨.ok none, [Except.ok "2015"]⟩).map (fun r => r.2.2) = .ok MISSING := by
  refine ⟨fun a ts => ?_, fun ts => ?_, rfl⟩
  · unfold extract_metadata
    rw [show (ts.map Except.ok).take 5 = (ts.take 5).map Except.ok from
      (List.map_take Except.ok ts 5).symm]
    rw [metaScan_spec]
    rfl
  · induction ts with
    | nil => intro c h; cases h
    | cons t rest ih =>
      intro c h
      rcases hi : reSearchIsbn t with _ | raw
      · rw [show firstAcceptedIsbn (t :: rest) = firstAcceptedIsbn rest by
          simp [firstAcceptedIsbn, hi]] at h
        exact ih c h
      · by_cases hok : 10 ≤ (cleanSepStr raw).length ∧ isYearShaped (cleanSepStr raw) = false
        · rw [show firstAcceptedIsbn (t :: rest) = some (cleanSepStr raw) by
            simp [firstAcceptedIsbn, hi, hok.1, hok.2]] at h
          cases h
          exact hok
        · rw [show firstAcceptedIsbn (t :: rest) = firstAcceptedIsbn rest by
            simp only [firstAcceptedIsbn, hi]
            rw [if_neg hok]] at h
          exact ih c h

/-- witness for C5_thm: the accepted candidate of a concrete page passes
the length/not-a-year test. -/
theorem C5_witness :
    10 ≤ ("9780306406157" : String).length ∧ isYearShaped "9780306406157" = false :=
  C5_thm.2.1 ["ISBN 978-0-306-40615-7"] "9780306406157" rfl

/-! ## Decimal rendering, characterised -/

lemma digitChar_isDigit (n : Nat) : (digitChar n).isDigit = true := by
  unfold digitChar
  split <;> rfl

lemma digitVal_digitChar (n : Nat) (h : n < 10) : digitVal (digitChar n) = n := by
  interval_cases n <;> rfl

lemma decVal_append (l : List Char) (c : Char) :
    decVal (l ++ [c]) = 10 * decVal l + digitVal c := by
  unfold decVal
  rw [List.foldl_append]
  rfl

lemma decVal_decDigits (n : Nat) : decVal (decDigits n) = n := by
  induction n using Nat.strong_induction_on with
  | _ n ih =>
    rw [decDigits]
    by_cases h : n < 10
    · rw [dif_pos h]
      unfold decVal
      simp [digitVal_digitChar n h]
    · rw [dif_neg h]
      rw [decVal_append, ih (n / 10) (Nat.div_lt_self (by omega) (by omega)),
        digitVal_digitChar (n % 10) (Nat.mod_lt n (by omega))]
      omega

lemma decDigits_ne_nil (n : Nat) : decDigits n ≠ [] := by
  rw [decDigits]
  split <;> simp

lemma decDigits_all_digit (n : Nat) : ∀ c ∈ decDigits n, c.isDigit = true := by
  induction n using Nat.strong_induction_on with
  | _ n ih =>
    rw [decDigits]
    by_cases h : n < 10
    · rw [dif_pos h]
      intro c hc
      simp at hc
      rw [hc]
      exact digitChar_isDigit n
    · rw [dif_neg h]
      intro c hc
      rcases List.mem_append.mp hc with h2 | h2
      · exact ih (n / 10) (Nat.div_lt_self (by omega) (by omega)) c h2
      · simp at h2
        rw [h2]
        exact digitChar_isDigit (n % 10)

lemma natRepr_inj {a b : Nat} (h : natRepr a = natRepr b) : a = b := by
  have hd : decDigits a = decDigits b := congrArg String.data h
  have := congrArg decVal hd
  rwa [decVal_decDigits, decVal_decDigits] at this

lemma isDigit_ne_underscore {c : Char} (h : c.isDigit = true) : c ≠ '_' := by
  intro he
  rw [he] at h
  exact absurd h (by decide)

lemma isDigit_ne_dash {c : Char} (h : c.isDigit = true) : c ≠ '-' := by
  intro he
  rw [he] at h
  exact absurd h (by decide)

lemma intRepr_inj {i j : Int} (h : intRepr i = intRepr j) : i = j := by
  unfold intRepr at h
  by_cases hi : i < 0 <;> by_cases hj : j < 0
  · rw [if_pos hi, if_pos hj] at h
    have hd := congrArg String.data h
    simp only [String.data_append] at hd
    have h2 : decDigits (-i).toNat = decDigits (-j).toNat := by
      have := List.tail_eq_of_cons_eq hd
      exact this
    have := natRepr_inj (congrArg String.mk h2)
    omega
  · rw [if_pos hi, if_neg hj] at h
    exfalso
    have hd := congrArg String.data h
    simp only [String.data_append] at hd
    obtain ⟨c, l, hcl⟩ : ∃ c l, decDigits j.toNat = c :: l := by
      rcases hn : decDigits j.toNat with _ | ⟨c, l⟩
      · exact absurd hn (decDigits_ne_nil _)
      · exact ⟨c, l, rfl⟩
    have hd2 : '-' :: decDigits (-i).toNat = decDigits j.toNat := hd
    rw [hcl] at hd2
    have hc : c = '-' := (List.head_eq_of_cons_eq hd2).symm
    have : c.isDigit = true := decDigits_all_digit j.toNat c (by rw [hcl]; exact List.mem_cons_self c l)
    exact isDigit_ne_dash this hc
  · rw [if_neg hi, if_pos hj] at h
    exfalso
    have hd := congrArg String.data h
    simp only [String.data_append] at hd
    obtain ⟨c, l, hcl⟩ : ∃ c l, decDigits i.toNat = c :: l := by
      rcases hn : decDigits i.toNat with _ | ⟨c, l⟩
      · exact absurd hn (decDigits_ne_nil _)
      · exact ⟨c, l, rfl⟩
    have hd2 : decDigits i.toNat = '-' :: decDigits (-j).toNat := hd
    rw [hcl] at hd2
    have hc : c = '-' := List.head_eq_of_cons_eq hd2
    have : c.isDigit = true := decDigits_all_digit i.toNat c (by rw [hcl]; exact List.mem_cons_self c l)
    exact isDigit_ne_dash this hc
  · rw [if_neg hi, if_neg hj] at h
    have := natRepr_inj h
    omega

/-- splitting a character list at a separator known to be absent from
both prefixes is unambiguous. -/
lemma append_sep_inj : ∀ (A A' B B' : List Char),
    (∀ c ∈ A, c ≠ '_') → (∀ c ∈ A', c ≠ '_') →
    A ++ '_' :: B = A' ++ '_' :: B' → A = A' ∧ B = B' := by
  intro A
  induction A with
  | nil =>
    intro A' B B' _ hA' h
    cases A' with
    | nil =>
      simp only [List.nil_append] at h
      exact ⟨rfl, List.tail_eq_of_cons_eq h⟩
    | cons a' as' =>
      exfalso
      simp only [List.nil_append, List.cons_append] at h
      exact hA' a' (List.mem_cons_self a' as') (List.head_eq_of_cons_eq h).symm
  | cons a as ih =>
    intro A' B B' hA hA' h
    cases A' with
    | nil =>
      exfalso
      simp only [List.nil_append, List.cons_append] at h
      exact hA a (List.mem_cons_self a as) (List.head_eq_of_cons_eq h)
    | cons a' as' =>
      simp only [List.cons_append] at h
      have h1 : a = a' := List.head_eq_of_cons_eq h
      have h2 := ih as' B B' (fun c hc => hA c (List.mem_cons_of_mem a hc))
        (fun c hc => hA' c (List.mem_cons_of_mem a' hc)) (List.tail_eq_of_cons_eq h)
      exact ⟨by rw [h1, h2.1], h2.2⟩

/-! ## Claim C6 — fingerprint sensitivity -/

/-- Claim C6 as stated is false: a modification-time change within the
same whole second leaves the fingerprint unchanged, because the
timestamp is truncated to integer seconds before being rendered. -/
theorem C6_counterexample :
    fingerprint "a" 1 ((1 : ℚ) / 4) = fingerprint "a" 1 ((3 : ℚ) / 4)
      ∧ ((1 : ℚ) / 4) ≠ ((3 : ℚ) / 4) := by
  have e1 : pyInt ((1 : ℚ) / 4) = 0 := by
    unfold pyInt
    rw [if_neg (by norm_num), Rat.floor_def', ← Rat.floor_def,
      show ((1 : ℚ) / 4) = ((1 : ℤ) : ℚ) / ((4 : ℕ) : ℚ) by norm_num,
      Rat.floor_intCast_div_natCast]
    decide
  have e2 : pyInt ((3 : ℚ) / 4) = 0 := by
    unfold pyInt
    rw [if_neg (by norm_num), Rat.floor_def', ← Rat.floor_def,
      show ((3 : ℚ) / 4) = ((3 : ℤ) : ℚ) / ((4 : ℕ) : ℚ) by norm_num,
      Rat.floor_intCast_div_natCast]
    decide
  refine ⟨?_, by norm_num⟩
  unfold fingerprint
  rw [e1, e2]

/-- Claim C6, amended: the fingerprint is the file name, the decimal
byte size and the decimal truncated (integer-second) modification time
joined by underscores; for a fixed name, two fingerprints are equal
exactly when the byte sizes are equal and the truncated modification
times are equal — so an unchanged file reproduces its fingerprint, any
byte-size change alters it, and a modification-time change alters it
precisely when it changes `int(mtime)`. -/
theorem C6_amended_thm (n : String) (s s2 : Nat) (m m2 : ℚ) :
    fingerprint n s m = fingerprint n s2 m2 ↔ (s = s2 ∧ pyInt m = pyInt m2) := by
  constructor
  · intro h
    unfold fingerprint at h
    have hd := congrArg String.data h
    simp only [String.data_append, List.append_assoc, List.singleton_append] at hd
    have h2 := List.append_cancel_left hd
    have h3 := List.tail_eq_of_cons_eq h2
    have h4 := append_sep_inj (decDigits s) (decDigits s2) _ _
      (fun c hc => isDigit_ne_underscore (decDigits_all_digit s c hc))
      (fun c hc => isDigit_ne_underscore (decDigits_all_digit s2 c hc)) h3
    refine ⟨natRepr_inj (congrArg String.mk h4.1), ?_⟩
    exact intRepr_inj (congrArg String.mk h4.2)
  · intro ⟨h1, h2⟩
    unfold fingerprint
    rw [h1, h2]

/-! ## The lexicographic file order, characterised -/

lemma lexLe_total : ∀ a b : List Char, lexLe a b = true ∨ lexLe b a = true := by
  intro a
  induction a with
  | nil => intro b; exact Or.inl rfl
  | cons x xs ih =>
    intro b
    cases b with
    | nil => exact Or.inr rfl
    | cons y ys =>
      simp only [lexLe]
      rcases Nat.lt_trichotomy x.toNat y.toNat with h | h | h
      · left
        rw [if_pos h]
      · rw [if_neg (by omega), if_pos h, if_neg (by omega), if_pos h.symm]
        exact ih ys
      · right
        rw [if_pos h]

lemma lexLe_trans : ∀ a b c : List Char,
    lexLe a b = true → lexLe b c = true → lexLe a c = true := by
  intro a
  induction a with
  | nil => intro b c _ _; rfl
  | cons x xs ih =>
    intro b c hab hbc
    cases b with
    | nil => simp [lexLe] at hab
    | cons y ys =>
      cases c with
      | nil => simp [lexLe] at hbc
      | cons z zs =>
        simp only [lexLe] at hab hbc ⊢
        by_cases h1 : x.toNat < y.toNat
        · by_cases h2 : y.toNat < z.toNat
          · rw [if_pos (by omega)]
          · rw [if_neg h2] at hbc
            by_cases h4 : y.toNat = z.toNat
            · rw [if_pos (by omega)]
            · rw [if_neg h4] at hbc
              cases hbc
        · rw [if_neg h1] at hab
          by_cases h3 : x.toNat = y.toNat
          · rw [if_pos h3] at hab
            by_cases h2 : y.toNat < z.toNat
            · rw [if_pos (by omega)]
            · rw [if_neg h2] at hbc
              by_cases h4 : y.toNat = z.toNat
              · rw [if_pos h4] at hbc
                rw [if_neg (by omega), if_pos (by omega)]
                exact ih ys zs hab hbc
              · rw [if_neg h4] at hbc
                cases hbc
          · rw [if_neg h3] at hab
            cases hab

lemma mem_insertSorted : ∀ (l : List String) (f x : String),
    x ∈ insertSorted f l ↔ x = f ∨ x ∈ l := by
  intro l
  induction l with
  | nil => intro f x; simp [insertSorted]
  | cons g gs ih =>
    intro f x
    rw [insertSorted]
    by_cases hf : lexLe f.data g.data = true
    · rw [if_pos hf]
      simp [List.mem_cons]
    · rw [if_neg hf]
      simp only [List.mem_cons, ih]
      tauto

lemma pairwise_insertSorted : ∀ (l : List String) (f : String),
    l.Pairwise nameLe → (insertSorted f l).Pairwise nameLe := by
  intro l
  induction l with
  | nil => intro f _; simp [insertSorted, nameLe]
  | cons g gs ih =>
    intro f h
    rw [List.pairwise_cons] at h
    rw [insertSorted]
    by_cases hf : lexLe f.data g.data = true
    · rw [if_pos hf]
      rw [List.pairwise_cons]
      refine ⟨?_, List.pairwise_cons.mpr h⟩
      intro y hy
      rcases List.mem_cons.mp hy with hy | hy
      · rw [hy]
        exact hf
      · exact lexLe_trans f.data g.data y.data hf (h.1 y hy)
    · rw [if_neg hf]
      rw [List.pairwise_cons]
      refine ⟨?_, ih f h.2⟩
      intro y hy
      rcases (mem_insertSorted gs f y).mp hy with hy | hy
      · rw [hy]
        rcases lexLe_total f.data g.data with hc | hc
        · exact absurd hc hf
        · exact hc
      · exact h.1 y hy

lemma pairwise_sortFiles : ∀ fs : List String, (sortFiles fs).Pairwise nameLe := by
  intro fs
  induction fs with
  | nil => simp [sortFiles]
  | cons f fs ih => exact pairwise_insertSorted (sortFiles fs) f ih

/-! ## The discoverer, characterised -/

lemma addFiles_mem : ∀ (fs : List String) (pre : List String) (i : Nat) x,
    x ∈ addFiles pre fs i → x.2.1 = pre ∧ x.2.2 ∈ fs := by
  intro fs
  induction fs with
  | nil => intro pre i x hx; cases hx
  | cons f fs ih =>
    intro pre i x hx
    rw [addFiles] at hx
    by_cases hp : isPdfName f = true
    · rw [if_pos hp] at hx
      rcases List.mem_cons.mp hx with hx | hx
      · rw [hx]
        exact ⟨rfl, List.mem_cons_self f fs⟩
      · have := ih pre (i + 1) x hx
        exact ⟨this.1, List.mem_cons_of_mem f this.2⟩
    · rw [if_neg hp] at hx
      have := ih pre i x hx
      exact ⟨this.1, List.mem_cons_of_mem f this.2⟩

lemma addFiles_pairwise : ∀ (fs : List String) (pre : List String) (i : Nat),
    fs.Pairwise nameLe →
    (addFiles pre fs i).Pairwise (fun a b => nameLe a.2.2 b.2.2) := by
  intro fs
  induction fs with
  | nil => intro pre i _; exact List.Pairwise.nil
  | cons f fs ih =>
    intro pre i h
    rw [List.pairwise_cons] at h
    rw [addFiles]
    by_cases hp : isPdfName f = true
    · rw [if_pos hp, List.pairwise_cons]
      refine ⟨?_, ih pre (i + 1) h.2⟩
      intro y hy
      exact h.1 y.2.2 (addFiles_mem fs pre (i + 1) y hy).2
    · rw [if_neg hp]
      exact ih pre i h.2

lemma addFiles_map_fst : ∀ (fs : List String) (pre : List String) (i : Nat),
    (addFiles pre fs i).map (fun j => j.1) =
      List.range' i (addFiles pre fs i).length := by
  intro fs
  induction fs with
  | nil => intro pre i; rfl
  | cons f fs ih =>
    intro pre i
    rw [addFiles]
    by_cases hp : isPdfName f = true
    · rw [if_pos hp]
      simp only [List.map_cons, List.length_cons, List.range']
      rw [ih pre (i + 1)]
    · rw [if_neg hp]
      exact ih pre i

lemma collectJobs_mem_pre : ∀ (blocks : List (List String × List String)) (i : Nat) x,
    x ∈ collectJobs blocks i → x.2.1 ∈ blocks.map Prod.fst := by
  intro blocks
  induction blocks with
  | nil => intro i x hx; cases hx
  | cons blk rest ih =>
    intro i x hx
    obtain ⟨pre, files⟩ := blk
    rw [collectJobs] at hx
    rcases List.mem_append.mp hx with hx | hx
    · rw [List.map_cons, (addFiles_mem _ pre i x hx).1]
      exact List.mem_cons_self pre (rest.map Prod.fst)
    · rw [List.map_cons]
      exact List.mem_cons_of_mem pre (ih _ x hx)

lemma collectJobs_map_fst : ∀ (blocks : List (List String × List String)) (i : Nat),
    (collectJobs blocks i).map (fun j => j.1) =
      List.range' i (collectJobs blocks i).length := by
  intro blocks
  induction blocks with
  | nil => intro i; rfl
  | cons blk rest ih =>
    intro i
    obtain ⟨pre, files⟩ := blk
    rw [collectJobs]
    rw [List.map_append, addFiles_map_fst, ih, List.length_append]
    have := List.range'_append i (addFiles pre (sortFiles files) i).length
      (collectJobs rest (i + (addFiles pre (sortFiles files) i).length)).length 1
    rw [Nat.one_mul] at this
    rw [this, Nat.add_comm]

lemma collectJobs_pairwise : ∀ (blocks : List (List String × List String)) (i : Nat),
    (blocks.map Prod.fst).Nodup →
    (collectJobs blocks i).Pairwise
      (fun a b => a.2.1 = b.2.1 → nameLe a.2.2 b.2.2) := by
  intro blocks
  induction blocks with
  | nil => intro i _; exact List.Pairwise.nil
  | cons blk rest ih =>
    intro i hnd
    obtain ⟨pre, files⟩ := blk
    rw [List.map_cons, List.nodup_cons] at hnd
    rw [collectJobs]
    rw [List.pairwise_append]
    refine ⟨?_, ih _ hnd.2, ?_⟩
    · exact (addFiles_pairwise (sortFiles files) pre i (pairwise_sortFiles files)).imp
        (fun hn => fun _ => hn)
    · intro a ha b hb heq
      exfalso
      have ha2 : a.2.1 = pre := (addFiles_mem _ pre i a ha).1
      have hb2 : b.2.1 ∈ rest.map Prod.fst := collectJobs_mem_pre rest _ b hb
      rw [← heq, ha2] at hb2
      exact hnd.1 hb2

/-! ## Claim C9 — discoverer index and ordering contract -/

/-- Claim C9: on any tree whose directory paths are distinct (as on a
real filesystem), the discoverer assigns indices 1, 2, 3, … in
traversal order — so they are unique, start at 1, increment by one per
qualifying file and are strictly increasing — and any two jobs of the
same directory appear in ascending code-point-lexicographic file-name
order.  Discovery is a pure function of the tree, hence reproducible on
an unchanged tree. -/
theorem C9_thm (t : FTree) (h : ((walkDirs t []).map Prod.fst).Nodup) :
    (find_pdfs_to_process t).map (fun j => j.1) =
      List.range' 1 (find_pdfs_to_process t).length
      ∧ (find_pdfs_to_process t).Pairwise
          (fun a b => a.2.1 = b.2.1 → nameLe a.2.2 b.2.2) :=
  ⟨collectJobs_map_fst (walkDirs t []) 1, collectJobs_pairwise (walkDirs t []) 1 h⟩

/-- witness for C9_thm on a concrete tree, together with the concrete
discovery result: files sorted within each directory, non-documents
skipped, indices consecutive from 1 across directories. -/
theorem C9_witness :
    ((find_pdfs_to_process treeSample).map (fun j => j.1) =
        List.range' 1 (find_pdfs_to_process treeSample).length
      ∧ (find_pdfs_to_process treeSample).Pairwise
          (fun a b => a.2.1 = b.2.1 → nameLe a.2.2 b.2.2))
      ∧ find_pdfs_to_process treeSample =
        [(1, ["root"], "a.pdf"), (2, ["root"], "b.pdf"), (3, ["root", "sub"], "c.PDF")] :=
  ⟨C9_thm treeSample (by decide), by decide⟩

/-! ## The scan loop, characterised -/

/-- when the loop completes, the result rows are the accumulated rows
followed by one row per job whose processing succeeded, and the calls
are the accumulated calls followed by `succCalls`. -/
lemma scanLoop_ok_spec (total : Nat) :
    ∀ (js : List JobState) (i : Nat) rows calls nc out,
      scanLoop total i js rows calls nc = .ok out →
      out.1 = rows ++ js.filterMap (fun s => process_pdf s.world s.job)
        ∧ out.2.1 = calls ++ succCalls total i js := by
  intro js
  induction js with
  | nil =>
    intro i rows calls nc out h
    cases h
    simp [succCalls]
  | cons s rest ih =>
    intro i rows calls nc out h
    simp only [scanLoop] at h
    rcases hst : s.statRes with e | ⟨sz, mt⟩
    · rw [hst] at h; cases h
    · rw [hst] at h
      dsimp only at h
      rcases hp : process_pdf s.world s.job with _ | r
      · rw [hp] at h
        dsimp only at h
        have hspec := ih (i + 1) rows calls _ out h
        constructor
        · rw [hspec.1]
          simp [List.filterMap_cons, hp]
        · rw [hspec.2]
          simp [succCalls, hp]
      · rw [hp] at h
        dsimp only at h
        rw [if_pos (Or.inl (Nat.mod_one i))] at h
        have hspec := ih (i + 1) (rows ++ [r]) (calls ++ [(i, total)]) _ out h
        constructor
        · rw [hspec.1]
          simp [List.filterMap_cons, hp]
        · rw [hspec.2]
          simp [succCalls, hp]

/-- when no `os.stat` call raises, the loop completes. -/
lemma scanLoop_isOk (total : Nat) :
    ∀ (js : List JobState) (i : Nat) rows calls nc,
      (∀ s ∈ js, s.statRes ≠ .error ()) →
      ∃ out, scanLoop total i js rows calls nc = .ok out := by
  intro js
  induction js with
  | nil => intro i rows calls nc _; exact ⟨_, rfl⟩
  | cons s rest ih =>
    intro i rows calls nc hs
    simp only [scanLoop]
    rcases hst : s.statRes with e | ⟨sz, mt⟩
    · cases e
      exact absurd hst (hs s (List.mem_cons_self s rest))
    · dsimp only
      exact ih (i + 1) _ _ _ (fun x hx => hs x (List.mem_cons_of_mem s hx))

/-- every emitted call reports the discovered total. -/
lemma succCalls_snd (total : Nat) :
    ∀ (js : List JobState) (i : Nat), ∀ p ∈ succCalls total i js, p.2 = total := by
  intro js
  induction js with
  | nil => intro i p hp; cases hp
  | cons s rest ih =>
    intro i p hp
    rw [succCalls] at hp
    rcases List.mem_append.mp hp with h | h
    · by_cases hps : (process_pdf s.world s.job).isSome = true
      · rw [if_pos hps] at h
        simp at h
        rw [h]
      · rw [if_neg hps] at h
        cases h
    · exact ih (i + 1) p h

/-- exactly one call is emitted per successfully processed job. -/
lemma succCalls_length (total : Nat) :
    ∀ (js : List JobState) (i : Nat),
      (succCalls total i js).length =
        (js.filter (fun s => (process_pdf s.world s.job).isSome)).length := by
  intro js
  induction js with
  | nil => intro i; rfl
  | cons s rest ih =>
    intro i
    rw [succCalls, List.length_append, ih (i + 1), List.filter_cons]
    by_cases hps : (process_pdf s.world s.job).isSome = true
    · simp [hps, Nat.add_comm]
    · simp [hps]

/-! ## Claim C2 — progress callback protocol -/

/-- Claim C2 as stated is false: when the only job fails to open, the
callback never fires at all — in particular there is no completion call
with `current == total`. -/
theorem C2_counterexample :
    (start_scan scanWorldOneFailing).map (fun r => r.calls) = .ok []
      ∧ scanWorldOneFailing.jobs.length = 1 :=
  ⟨rfl, rfl⟩

/-- Claim C2, amended: the callback is invoked exactly once after each
successfully processed job, with arguments (position of the job in the
list, counting from 1; total number of discovered jobs); jobs whose
document fails to open produce no invocation but still count toward the
total; there is no separate completion call, so a call with
`current == total` happens only when the final job yields a row. -/
theorem C2_amended_thm (w : ScanWorld) (res : ScanOutcome) (h : start_scan w = .ok res) :
    res.calls = succCalls w.jobs.length 1 w.jobs
      ∧ (∀ p ∈ res.calls, p.2 = w.jobs.length)
      ∧ res.calls.length =
          (w.jobs.filter (fun s => (process_pdf s.world s.job).isSome)).length := by
  unfold start_scan at h
  rcases hc : load_cache w.cacheFile with e | m
  · rw [hc] at h; cases h
  · rw [hc] at h
    rcases hs : scanLoop w.jobs.length 1 w.jobs [] [] [] with e | ⟨rows, calls, nc⟩
    · rw [hs] at h; cases h
    · rw [hs] at h
      dsimp only at h
      have hspec := scanLoop_ok_spec w.jobs.length w.jobs 1 [] [] [] (rows, calls, nc) hs
      have hcalls : res.calls = calls := by
        by_cases he : rows.isEmpty
        · rw [if_pos he] at h; cases h; rfl
        · rw [if_neg he] at h; cases h; rfl
      have hc2 : res.calls = succCalls w.jobs.length 1 w.jobs := by
        rw [hcalls]
        simpa using hspec.2
      refine ⟨hc2, ?_, ?_⟩
      · rw [hc2]
        exact succCalls_snd w.jobs.length w.jobs 1
      · rw [hc2, succCalls_length]

/-- witness for C2_amended_thm at a concrete scan: the failing first job
emits no call, the succeeding second job emits `(2, 2)`. -/
theorem C2_witness :
    (start_scan scanWorldMixed).map (fun r => r.calls) = .ok [(2, 2)] := by
  obtain ⟨res, h⟩ : ∃ r, start_scan scanWorldMixed = .ok r := ⟨_, rfl⟩
  have hc := (C2_amended_thm scanWorldMixed res h).1
  rw [h]
  simp only [Except.map]
  rw [hc]
  rfl

/-! ## Claim C3 — failure isolation of the batch scan -/

/-- Claim C3 as stated is false: a corrupt fingerprint state file at
scan start, and a file vanishing before the post-job `os.stat`
fingerprint call, each terminate the whole batch. -/
theorem C3_counterexample :
    start_scan ⟨some (.error ()), [⟨jobA, worldOk, .ok (1, 2)⟩]⟩ = .error ()
      ∧ start_scan scanWorldStatDies = .error () :=
  ⟨rfl, rfl⟩

/-- Claim C3, amended: as long as the fingerprint state file is not
corrupt and no file vanishes before its post-job `os.stat` call, the
batch always runs to completion whatever the per-document outcomes are,
and the result set consists of exactly the documents whose guarded
processing produced a row (any failure caught inside `process_pdf`
removes only that document). -/
theorem C3_amended_thm (w : ScanWorld)
    (hc : w.cacheFile ≠ some (.error ()))
    (hs : ∀ s ∈ w.jobs, s.statRes ≠ .error ()) :
    ∃ res, start_scan w = .ok res
      ∧ res.rows = w.jobs.filterMap (fun s => process_pdf s.world s.job) := by
  obtain ⟨m, hm⟩ : ∃ m, load_cache w.cacheFile = .ok m := by
    rcases hcf : w.cacheFile with _ | r
    · exact ⟨[], rfl⟩
    · rcases r with e | mm
      · cases e; exact absurd hcf hc
      · exact ⟨mm, rfl⟩
  obtain ⟨out, hout⟩ := scanLoop_isOk w.jobs.length w.jobs 1 [] [] [] hs
  obtain ⟨rows, calls, nc⟩ := out
  have hspec := scanLoop_ok_spec w.jobs.length w.jobs 1 [] [] [] (rows, calls, nc) hout
  unfold start_scan
  rw [hm, hout]
  dsimp only
  by_cases he : rows.isEmpty
  · rw [if_pos he]
    exact ⟨_, rfl, by simpa using hspec.1⟩
  · rw [if_neg he]
    exact ⟨_, rfl, by simpa using hspec.1⟩

/-- witness for C3_amended_thm at a concrete scan world with one failing
and one succeeding document. -/
theorem C3_witness :
    ∃ res, start_scan scanWorldMixed = .ok res
      ∧ res.rows = scanWorldMixed.jobs.filterMap (fun s => process_pdf s.world s.job) :=
  C3_amended_thm scanWorldMixed (by intro h; cases h)
    (by
      intro s hsm
      simp only [scanWorldMixed, List.mem_cons, List.not_mem_nil, or_false] at hsm
      rcases hsm with h | h
      · subst h; intro hcontra; simp at hcontra
      · subst h; intro hcontra; simp at hcontra)

end MetaSortX
